import Mathlib

/-!
Shallow embedding of the neural-network engine in `src/nn.ts` (the
TensorFlow-playground style engine): graph data model (`Node`, `Link`),
forward propagation (single example and mini-batch), backward propagation,
the two parameter-update rules (plain SGD and Adam), and the layer/batch
normalization procedures.

Modelling conventions:
* JS `number` is modelled by an arbitrary linear ordered field `K`
  (instantiated at `ℝ` in the theorems); `Math.sqrt` is passed explicitly
  as a function argument `sqrt : K → K` and instantiated with `Real.sqrt`.
* The mutable object graph is modelled functionally: a network is a list of
  layers, each a list of nodes; a node carries its incoming links
  (`inputLinks`), mirroring `buildNetwork`'s full bipartite connectivity in
  which `inputLinks[j].source` is node `j` of the previous layer.  Backward
  references (`Node.outputs`, `Link.source`, `Link.dest`) are therefore
  recovered positionally (`prev.getD j _` stands for `link.source`).
* `throw` is modelled by `Except String`; the single validation error uses
  the source's message text.
* Fields of the source classes that no embedded function ever reads or
  writes (`id` strings, `bnMean`, `bnVariance`, `bnNormalized`,
  `lnNormalized`, `lnMean`, `lnVariance`, and the four `*Grad` fields) are
  omitted from the structures.
-/

namespace Playground

/-- The two regularization function tables of `nn.ts`; the source compares
them by object identity (`link.regularization === RegularizationFunction.L1`),
modelled by equality of this tag. -/
inductive RegKind : Type where
  | L1 : RegKind
  | L2 : RegKind
deriving DecidableEq, Repr

/-- `ActivationFunction` interface: output and derivative. -/
structure ActivationFunction (K : Type) where
  output : K → K
  der : K → K

/-- `ErrorFunction` interface: error value and derivative. -/
structure ErrorFunction (K : Type) where
  error : K → K → K
  der : K → K → K

variable {K : Type} [LinearOrderedField K]

/-- `Activations.LINEAR`: `output: x => x, der: x => 1`. -/
def Activations.LINEAR : ActivationFunction K :=
  { output := fun x => x, der := fun _ => 1 }

/-- `Activations.RELU`: `output: x => Math.max(0, x), der: x => x <= 0 ? 0 : 1`. -/
def Activations.RELU : ActivationFunction K :=
  { output := fun x => max 0 x, der := fun x => if x ≤ 0 then 0 else 1 }

/-- `Errors.SQUARE`: `error: 0.5 * (output - target)^2, der: output - target`. -/
def Errors.SQUARE : ErrorFunction K :=
  { error := fun output target => (1 / 2) * (output - target) ^ 2,
    der := fun output target => output - target }

/-- `link.regularization ? link.regularization.der(link.weight) : 0`, with
`L1.der: w => w < 0 ? -1 : (w > 0 ? 1 : 0)` and `L2.der: w => w`. -/
def RegularizationDer : Option RegKind → K → K
  | Option.none, _ => 0
  | Option.some RegKind.L1, w => if w < 0 then -1 else if w > 0 then 1 else 0
  | Option.some RegKind.L2, w => w

/-- The `Link` class: weight, dead flag, gradient accumulators, the shared
regularization table (by tag), and Adam moment estimates. -/
structure Link (K : Type) where
  weight : K
  isDead : Bool
  errorDer : K
  accErrorDer : K
  numAccumulatedDers : ℕ
  regularization : Option RegKind
  mWeight : K
  vWeight : K

/-- The `Node` class: bias, incoming links, transient propagation state,
gradient accumulators, Adam moment estimates and normalization parameters. -/
structure Node (K : Type) where
  bias : K
  inputLinks : List (Link K)
  totalInput : K
  output : K
  totalBatchInput : List K
  batchOutput : List K
  outputDer : K
  inputDer : K
  accInputDer : K
  numAccumulatedDers : ℕ
  activation : ActivationFunction K
  mBias : K
  vBias : K
  bnGamma : K
  bnBeta : K
  bnEpsilon : K
  lnGamma : K
  lnBeta : K
  lnEpsilon : K

/-- A network: a list of layers, each a list of nodes (`Node[][]`). -/
abbrev Network (K : Type) := List (List (Node K))

/-- A fresh link as built by the `Link` constructor (non-zero-init), with the
weight as a parameter standing for the `Math.random() - 0.5` draw. -/
def mkLink (weight : K) (regularization : Option RegKind) : Link K :=
  { weight := weight, isDead := false, errorDer := 0, accErrorDer := 0,
    numAccumulatedDers := 0, regularization := regularization,
    mWeight := 0, vWeight := 0 }

/-- A fresh node as built by the `Node` constructor (non-zero-init): class
field defaults `bias = 0.1`, `mBias = vBias = 0.1`, `bnGamma = lnGamma = 1`,
`bnBeta = lnBeta = 0`, `bnEpsilon = lnEpsilon = 1e-8`; the uninitialized
(`undefined`) transient fields `totalInput`/`output` are modelled as `0`.
The bias is a parameter so that trained states can be written directly. -/
def mkNode (bias : K) (activation : ActivationFunction K)
    (inputLinks : List (Link K)) : Node K :=
  { bias := bias, inputLinks := inputLinks, totalInput := 0, output := 0,
    totalBatchInput := [], batchOutput := [], outputDer := 0, inputDer := 0,
    accInputDer := 0, numAccumulatedDers := 0, activation := activation,
    mBias := 1 / 10, vBias := 1 / 10,
    bnGamma := 1, bnBeta := 0, bnEpsilon := 1 / 100000000,
    lnGamma := 1, lnBeta := 0, lnEpsilon := 1 / 100000000 }

/-- Placeholder node used as the default of positional lookups that cannot
miss on well-formed networks. -/
def dummyNode : Node K := mkNode 0 Activations.LINEAR []

/-- `Node.updateOutput`: `totalInput = bias + Σ link.weight * link.source.output`,
`output = activation.output(totalInput)`.  `link.source` of the `j`-th link is
node `j` of the previous layer. -/
def updateOutput (prev : List (Node K)) (node : Node K) : Node K :=
  let ti := node.inputLinks.enum.foldl
    (fun acc jl => acc + jl.2.weight * (prev.getD jl.1 dummyNode).output)
    node.bias
  { node with totalInput := ti, output := node.activation.output ti }

/-- The layer-normalization block of `forwardProp`: mean and biased variance
of the layer's outputs, then per node
`output = lnGamma * ((output - mean) / sqrt(variance + lnEpsilon)) + lnBeta`. -/
def layerNormalize (sqrt : K → K) (layer : List (Node K)) : List (Node K) :=
  let layerSize : K := (layer.length : K)
  let mean := (layer.foldl (fun acc node => acc + node.output) 0) / layerSize
  let variance :=
    (layer.foldl (fun acc node => acc + (node.output - mean) ^ 2) 0) / layerSize
  layer.map (fun node =>
    let o1 := (node.output - mean) / sqrt (variance + node.lnEpsilon)
    { node with output := node.lnGamma * o1 + node.lnBeta })

/-- The layer loop of `forwardProp` over layers `1..end`: update every node,
then layer-normalize when `normalization === "Layer"` and the layer is not
the last one (`layerIdx < network.length - 1` ⟺ `rest` nonempty). -/
def forwardLayers (sqrt : K → K) (normalization : String) :
    List (Node K) → List (List (Node K)) → List (List (Node K))
  | _, [] => []
  | prev, layer :: rest =>
    let updated := layer.map (updateOutput prev)
    let normed :=
      if normalization = "Layer" ∧ rest.isEmpty = false then
        layerNormalize sqrt updated
      else updated
    normed :: forwardLayers sqrt normalization normed rest

/-- The shape-mismatch error message thrown by both forward passes. -/
def shapeMismatchMsg : String :=
  "The number of inputs must match the number of nodes in the input layer"

/-- The input-layer write of `forwardProp`: `node.output = inputs[i]`
(only reached when `inputs.length = inputLayer.length`). -/
def setInputOutputs (inputLayer : List (Node K)) (inputs : List K) :
    List (Node K) :=
  inputLayer.enum.map (fun p => { p.2 with output := inputs.getD p.1 p.2.output })

/-- `forwardProp(network, inputs, normalization)`.  Throws the shape-mismatch
error when `inputs.length !== inputLayer.length`, before touching any state.
The source returns the output node's scalar output; the model returns the
updated network (the scalar is `outputValue`).  An empty network would crash
in JS (`network[0]` is `undefined`); built networks are never empty. -/
def forwardProp (net : Network K) (inputs : List K) (normalization : String)
    (sqrt : K → K) : Except String (Network K) :=
  match net with
  | [] => Except.error "empty network"
  | inputLayer :: rest =>
    if inputs.length ≠ inputLayer.length then Except.error shapeMismatchMsg
    else
      let inputLayer' := setInputOutputs inputLayer inputs
      Except.ok (inputLayer' :: forwardLayers sqrt normalization inputLayer' rest)

/-- The network as the caller sees it after `forwardProp`: updated on
success, untouched when the validation error was thrown. -/
def forwardPropD (net : Network K) (inputs : List K) (normalization : String)
    (sqrt : K → K) : Network K :=
  match forwardProp net inputs normalization sqrt with
  | Except.ok n => n
  | Except.error _ => net

/-- `getOutputNode(network).output`: the output of `network[len-1][0]`. -/
def outputValue (net : Network K) : K :=
  ((net.getLastD []).headD dummyNode).output

/-! ## Backward propagation

`backProp` and `backPropWithBatch` run the same per-layer passes; they differ
only in which node fields they read: the single-example pass reads
`totalInput` / `output`, the batch pass at batch index `k` reads
`totalBatchInput[k]` / `batchOutput[k]`.  The common algorithm is therefore
parameterized by the two projections `projTI` (the pre-activation value) and
`projOut` (the source-output value). -/

/-- Step 1 of the per-layer loop of `backProp`:
`inputDer = outputDer * activation.der(totalInput)`, accumulated into
`accInputDer` with its count. -/
def backPropNodes (projTI : Node K → K) (layer : List (Node K)) :
    List (Node K) :=
  layer.map (fun node =>
    let d := node.outputDer * node.activation.der (projTI node)
    { node with
      inputDer := d, accInputDer := node.accInputDer + d,
      numAccumulatedDers := node.numAccumulatedDers + 1 })

/-- Step 2 of the per-layer loop of `backProp`: for every non-dead input
link, `errorDer = node.inputDer * link.source.output`, accumulated into
`accErrorDer` with its count; dead links are skipped untouched. -/
def backPropLinks (projOut : Node K → K) (prev : List (Node K))
    (layer : List (Node K)) : List (Node K) :=
  layer.map (fun node =>
    { node with inputLinks := node.inputLinks.enum.map (fun jl =>
        let link := jl.2
        if link.isDead then link
        else
          let ed := node.inputDer * projOut (prev.getD jl.1 dummyNode)
          { link with
            errorDer := ed, accErrorDer := link.accErrorDer + ed,
            numAccumulatedDers := link.numAccumulatedDers + 1 }) })

/-- Step 3 of the per-layer loop of `backProp`: the fresh `outputDer` of
node `j` of the previous layer, `Σ output.weight * output.dest.inputDer`
over its outgoing links, which are the `j`-th input links of the current
layer's nodes (dead links included, as in the source). -/
def prevOutputDers (layer : List (Node K)) (prevLen : ℕ) : List K :=
  (List.range prevLen).map (fun j =>
    layer.foldl
      (fun acc node => acc + (node.inputLinks.getD j (mkLink 0 Option.none)).weight * node.inputDer)
      0)

/-- Overwrite (`node.outputDer = ...`) the layer's output derivatives with
the values propagated from the layer above. -/
def setOutputDers (layer : List (Node K)) (ds : List K) : List (Node K) :=
  layer.enum.map (fun p => { p.2 with outputDer := ds.getD p.1 p.2.outputDer })

/-- The backwards layer loop (`layerIdx = len-1` down to `1`), as a recursion
that processes the tail (the layers above) first.  `srcLayer` is the layer
below the first layer of the argument; its `output`s are the link sources.
Returns the updated layers together with the `outputDer` vector for the layer
below (computed for layer 1 too, where the source skips step 3 — the caller
discards it, which is observationally the same since step 3 is pure). -/
def backPropAux (projTI projOut : Node K → K) :
    List (Node K) → List (List (Node K)) → List (List (Node K)) × List K
  | _, [] => ([], [])
  | srcLayer, layer :: rest =>
    let processed := backPropAux projTI projOut layer rest
    let layer₁ := if rest.isEmpty then layer else setOutputDers layer processed.2
    let layer₂ := backPropNodes projTI layer₁
    let layer₃ := backPropLinks projOut srcLayer layer₂
    (layer₃ :: processed.1, prevOutputDers layer₃ srcLayer.length)

/-- Apply `f` to the head of a list (if any). -/
def modifyHead (f : α → α) : List α → List α
  | [] => []
  | a :: rest => f a :: rest

/-- Apply `f` to the last element of a list (if any). -/
def modifyLast (f : α → α) : List α → List α
  | [] => []
  | [a] => [f a]
  | a :: b :: rest => a :: modifyLast f (b :: rest)

/-- `outputNode.outputDer = errorFunc.der(projOut(outputNode), target)`. -/
def setTargetDer (projOut : Node K → K) (target : K)
    (errorFunc : ErrorFunction K) (node : Node K) : Node K :=
  { node with outputDer := errorFunc.der (projOut node) target }

/-- The common body of `backProp`/`backPropWithBatch`: set the output node's
(`network[len-1][0]`) `outputDer` from the error derivative and run the
backwards layer loop down to layer 1. -/
def backPropWith (projTI projOut : Node K → K) (net : Network K) (target : K)
    (errorFunc : ErrorFunction K) : Network K :=
  match net with
  | [] => []
  | [onlyLayer] =>
    [modifyHead (setTargetDer projOut target errorFunc) onlyLayer]
  | inputLayer :: layer1 :: rest =>
    inputLayer ::
      (backPropAux projTI projOut inputLayer
        (modifyLast (modifyHead (setTargetDer projOut target errorFunc))
          (layer1 :: rest))).1

/-- `backProp(network, target, errorFunc)`: the single-example pass reads
`totalInput` and `output`. -/
def backProp (net : Network K) (target : K) (errorFunc : ErrorFunction K) :
    Network K :=
  backPropWith (fun n => n.totalInput) (fun n => n.output) net target errorFunc

/-- One iteration of `backPropWithBatch`'s `forEach` at batch index `k`:
identical to `backProp` but reading `totalBatchInput[k]` / `batchOutput[k]`. -/
def backPropBatchPass (k : ℕ) (net : Network K) (target : K)
    (errorFunc : ErrorFunction K) : Network K :=
  backPropWith (fun n => n.totalBatchInput.getD k 0)
    (fun n => n.batchOutput.getD k 0) net target errorFunc

/-- `backPropWithBatch(network, targetBatch, errorFunc)`: run the batch pass
once per target, accumulating into the shared accumulators. -/
def backPropWithBatch (net : Network K) (targetBatch : List K)
    (errorFunc : ErrorFunction K) : Network K :=
  targetBatch.enum.foldl
    (fun acc kt => backPropBatchPass kt.1 acc kt.2 errorFunc) net

/-! ## Parameter updates -/

/-- The per-link body of `updateWeights`: dead links are skipped; with
accumulated gradients the weight takes the gradient step, then the
regularization step, with the L1 zero-crossing prune.  Note the source
computes `regulDer` from the weight it had on entry, before the gradient
step. -/
def updateLinkPlain (learningRate regularizationRate : K) (link : Link K) :
    Link K :=
  if link.isDead then link
  else
    let regulDer := RegularizationDer link.regularization link.weight
    if link.numAccumulatedDers > 0 then
      let w1 := link.weight -
        (learningRate / (link.numAccumulatedDers : K)) * link.accErrorDer
      let newLinkWeight := w1 - (learningRate * regularizationRate) * regulDer
      if link.regularization = Option.some RegKind.L1 ∧ w1 * newLinkWeight < 0 then
        { link with
          weight := 0, isDead := true,
          accErrorDer := 0, numAccumulatedDers := 0 }
      else
        { link with
          weight := newLinkWeight,
          accErrorDer := 0, numAccumulatedDers := 0 }
    else link

/-- The per-node body of `updateWeights`: bias step (when gradients were
accumulated) with accumulator reset, then every input link updated. -/
def updateNodePlain (learningRate regularizationRate : K) (node : Node K) :
    Node K :=
  let node₁ :=
    if node.numAccumulatedDers > 0 then
      { node with
        bias := node.bias -
          learningRate * node.accInputDer / (node.numAccumulatedDers : K),
        accInputDer := 0, numAccumulatedDers := 0 }
    else node
  { node₁ with
    inputLinks := node₁.inputLinks.map
      (updateLinkPlain learningRate regularizationRate) }

/-- `updateWeights(network, learningRate, regularizationRate)`: every node of
layers `1..end` is updated; the input layer is untouched. -/
def updateWeights (net : Network K) (learningRate regularizationRate : K) :
    Network K :=
  match net with
  | [] => []
  | inputLayer :: rest =>
    inputLayer ::
      rest.map (List.map (updateNodePlain learningRate regularizationRate))

/-- The per-link body of `updateWeightsWithAdam`: moment updates,
bias-corrected estimates, the single update step with the regularization term
folded in, and the L1 pruning check of lines 565-566 comparing the fully
updated weight with itself minus the regularization step again. -/
def updateLinkAdam (sqrt : K → K) (alpha regularizationRate : K) (t : ℕ)
    (beta1 beta2 epsilon : K) (link : Link K) : Link K :=
  if link.isDead then link
  else if link.numAccumulatedDers > 0 then
    let gWeight := link.accErrorDer / (link.numAccumulatedDers : K)
    let m := beta1 * link.mWeight + (1 - beta1) * gWeight
    let v := beta2 * link.vWeight + (1 - beta2) * gWeight * gWeight
    let mHat := m / (1 - beta1 ^ t)
    let vHat := v / (1 - beta2 ^ t)
    let regulDer := RegularizationDer link.regularization link.weight
    let w1 := link.weight -
      alpha * (mHat / (sqrt vHat + epsilon) + regularizationRate * regulDer)
    if link.regularization = Option.some RegKind.L1 ∧
        w1 * (w1 - alpha * regularizationRate * regulDer) < 0 then
      { link with
        weight := 0, isDead := true, mWeight := m, vWeight := v,
        accErrorDer := 0, numAccumulatedDers := 0 }
    else
      { link with
        weight := w1, mWeight := m, vWeight := v,
        accErrorDer := 0, numAccumulatedDers := 0 }
  else link

/-- The per-node body of `updateWeightsWithAdam`: Adam bias step with
accumulator reset, then every input link updated. -/
def updateNodeAdam (sqrt : K → K) (alpha regularizationRate : K) (t : ℕ)
    (beta1 beta2 epsilon : K) (node : Node K) : Node K :=
  let node₁ :=
    if node.numAccumulatedDers > 0 then
      let gBias := node.accInputDer / (node.numAccumulatedDers : K)
      let m := beta1 * node.mBias + (1 - beta1) * gBias
      let v := beta2 * node.vBias + (1 - beta2) * gBias * gBias
      let mHat := m / (1 - beta1 ^ t)
      let vHat := v / (1 - beta2 ^ t)
      { node with
        bias := node.bias - alpha * mHat / (sqrt vHat + epsilon),
        mBias := m, vBias := v, accInputDer := 0, numAccumulatedDers := 0 }
    else node
  { node₁ with
    inputLinks := node₁.inputLinks.map
      (updateLinkAdam sqrt alpha regularizationRate t beta1 beta2 epsilon) }

/-- `updateWeightsWithAdam(network, learningRate, regularizationRate,
iteration, beta1, beta2, epsilon)` (defaults `0.9`, `0.999`, `1e-8`): every
node of layers `1..end` updated with the Adam rule.  `iteration` is the
1-indexed step count; at `t = 0` the source divides by zero (`Infinity` in
JS), which is outside the caller contract. -/
def updateWeightsWithAdam (net : Network K)
    (learningRate regularizationRate : K) (t : ℕ) (beta1 beta2 epsilon : K)
    (sqrt : K → K) : Network K :=
  match net with
  | [] => []
  | inputLayer :: rest =>
    inputLayer ::
      rest.map (List.map
        (updateNodeAdam sqrt learningRate regularizationRate t beta1 beta2 epsilon))

/-! ## Mini-batch forward propagation -/

/-- `Node.updateBatchOutput`: for every batch index `i` (the batch size is
`inputLinks[0].source.batchOutput.length`, i.e. the length of the previous
layer's first node's batch array), recompute
`totalInput = bias + Σ link.weight * link.source.batchOutput[i]` and
`output = activation.output(totalInput)`, storing them into slot `i` of
`totalBatchInput`/`batchOutput`.  The scalar `totalInput`/`output` fields end
holding the last batch element's values, as in the source. -/
def updateBatchOutput (prev : List (Node K)) (node : Node K) : Node K :=
  let batchSize := ((prev.headD dummyNode).batchOutput).length
  let tis := (List.range batchSize).map (fun i =>
    node.inputLinks.enum.foldl
      (fun acc jl => acc + jl.2.weight * ((prev.getD jl.1 dummyNode).batchOutput.getD i 0))
      node.bias)
  let outs := tis.map node.activation.output
  { node with
    totalBatchInput := tis, batchOutput := outs,
    totalInput := tis.getLastD node.totalInput,
    output := outs.getLastD node.output }

/-- `Node.batchNormalization`: mean and biased variance over this node's own
`batchOutput` array, then each entry rescaled in two steps,
`x = (x - mean) / sqrt(variance + bnEpsilon)` and `x = bnGamma * x + bnBeta`. -/
def batchNormalizeNode (sqrt : K → K) (node : Node K) : Node K :=
  let batchSize : K := (node.batchOutput.length : K)
  let mean := (node.batchOutput.foldl (fun acc x => acc + x) 0) / batchSize
  let variance :=
    (node.batchOutput.foldl (fun acc x => acc + (x - mean) ^ 2) 0) / batchSize
  { node with
    batchOutput := node.batchOutput.map (fun x =>
      node.bnGamma * ((x - mean) / sqrt (variance + node.bnEpsilon)) + node.bnBeta) }

/-- One `inputs.forEach` iteration of `forwardPropWithBatch` on a layer of
index ≥ 1: every node recomputes its batch outputs and, unless the layer is
the last one, batch-normalizes them. -/
def batchLayerPass (sqrt : K → K) (isLast : Bool) (prev layer : List (Node K)) :
    List (Node K) :=
  layer.map (fun node =>
    let node₁ := updateBatchOutput prev node
    if isLast then node₁ else batchNormalizeNode sqrt node₁)

/-- The layer loop of `forwardPropWithBatch` over layers `1..end`.  The
source's `inputs.forEach` re-runs the whole per-layer computation once per
batch element (the loop body ignores the element for layers ≥ 1), modelled by
iterating `batchLayerPass` `batchCount` times; each run recomputes the batch
outputs from the previous layer, so for `batchCount ≥ 1` the repetitions
coincide with a single run. -/
def forwardBatchLayers (sqrt : K → K) (batchCount : ℕ) :
    List (Node K) → List (List (Node K)) → List (List (Node K))
  | _, [] => []
  | prev, layer :: rest =>
    let layer' := (batchLayerPass sqrt rest.isEmpty prev)^[batchCount] layer
    layer' :: forwardBatchLayers sqrt batchCount layer' rest

/-- The input-layer phase of `forwardPropWithBatch`: for every batch element
`bni`, `node.batchOutput[bni] = input[i]` for node `i` of the input layer
(slot `i` past the end of a too-short batch element is `undefined` in JS,
modelled as `0`; only the error path of the claims touches such batches). -/
def setBatchInputs (inputLayer : List (Node K)) (inputs : List (List K)) :
    List (Node K) :=
  inputLayer.enum.map (fun p =>
    { p.2 with batchOutput := inputs.map (fun input => input.getD p.1 0) })

/-- `forwardPropWithBatch(network, inputs)`: validates only `inputs[0]`
against the input layer, then runs the batched layer loop.  Note the source
takes no normalization-mode argument.  The source returns the output node's
`batchOutput`; the model returns the updated network. -/
def forwardPropWithBatch (net : Network K) (inputs : List (List K))
    (sqrt : K → K) : Except String (Network K) :=
  match net with
  | [] => Except.error "empty network"
  | inputLayer :: rest =>
    if (inputs.headD []).length ≠ inputLayer.length then
      Except.error shapeMismatchMsg
    else
      let inputLayer' := setBatchInputs inputLayer inputs
      Except.ok (inputLayer' :: forwardBatchLayers sqrt inputs.length inputLayer' rest)

/-- The network as the caller sees it after `forwardPropWithBatch`. -/
def forwardPropWithBatchD (net : Network K) (inputs : List (List K))
    (sqrt : K → K) : Network K :=
  match forwardPropWithBatch net inputs sqrt with
  | Except.ok n => n
  | Except.error _ => net

/-! ## Accessors and training steps -/

/-- Whether an `Except` result is a success. -/
def exceptIsOk : Except ε α → Bool
  | Except.ok _ => true
  | Except.error _ => false

/-- The node `network[i][j]`, if those positions exist. -/
def nodeAt (net : Network K) (i j : ℕ) : Option (Node K) :=
  (net.get? i).bind (fun layer => layer.get? j)

/-- The link `network[i][j].inputLinks[k]`, if those positions exist. -/
def linkAt (net : Network K) (i j k : ℕ) : Option (Link K) :=
  (nodeAt net i j).bind (fun node => node.inputLinks.get? k)

/-- The output of node `network[i][j]` (`0` when out of range). -/
def outputAt (net : Network K) (i j : ℕ) : K :=
  ((net.getD i []).getD j dummyNode).output

/-- The batch outputs of node `network[i][j]` (`[]` when out of range). -/
def batchOutputAt (net : Network K) (i j : ℕ) : List K :=
  ((net.getD i []).getD j dummyNode).batchOutput

/-- One engine call, as fired by the external training driver. -/
inductive TrainStep (K : Type) where
  | forward (inputs : List K) (normalization : String)
  | forwardBatch (inputs : List (List K))
  | backward (target : K) (errorFunc : ErrorFunction K)
  | backwardBatch (targets : List K) (errorFunc : ErrorFunction K)
  | updatePlain (learningRate regularizationRate : K)
  | updateAdam (learningRate regularizationRate : K) (t : ℕ)
      (beta1 beta2 epsilon : K)

/-- Apply one engine call to the network. -/
def applyStep (sqrt : K → K) (net : Network K) : TrainStep K → Network K
  | TrainStep.forward inputs normalization =>
    forwardPropD net inputs normalization sqrt
  | TrainStep.forwardBatch inputs => forwardPropWithBatchD net inputs sqrt
  | TrainStep.backward target errorFunc => backProp net target errorFunc
  | TrainStep.backwardBatch targets errorFunc =>
    backPropWithBatch net targets errorFunc
  | TrainStep.updatePlain lr rr => updateWeights net lr rr
  | TrainStep.updateAdam lr rr t beta1 beta2 epsilon =>
    updateWeightsWithAdam net lr rr t beta1 beta2 epsilon sqrt

/-- Run a sequence of engine calls. -/
def runSteps (sqrt : K → K) (net : Network K) (steps : List (TrainStep K)) :
    Network K :=
  steps.foldl (applyStep sqrt) net

/-! ## Concrete networks used in the theorems -/

/-- An input-layer node (fresh, default bias; its bias is never used). -/
def inNode : Node K := mkNode (1 / 10) Activations.LINEAR []

/-- A `[2, 1]` network with linear output, unit weights and no
regularization. -/
def net21ex : Network K :=
  [[inNode, inNode],
   [mkNode (1 / 10) Activations.LINEAR
      [mkLink 1 Option.none, mkLink 1 Option.none]]]

/-! ## C9: single-example forward shape validation -/

/-- Claim C9: `forwardProp` fails with the shape-mismatch error exactly when
the input vector's length differs from the number of input-layer nodes, and
on that error the network (every node and link field) is unmodified. -/
theorem forwardProp_shape_mismatch_iff (L0 : List (Node ℝ))
    (ls : List (List (Node ℝ))) (inputs : List ℝ) (normalization : String)
    (sqrt : ℝ → ℝ) :
    (forwardProp (L0 :: ls) inputs normalization sqrt
        = Except.error shapeMismatchMsg
      ↔ inputs.length ≠ L0.length) ∧
    (inputs.length ≠ L0.length →
      forwardPropD (L0 :: ls) inputs normalization sqrt = L0 :: ls) := by
  by_cases h : inputs.length = L0.length
  · simp [forwardProp, forwardPropD, h]
  · simp [forwardProp, forwardPropD, h]

/-! ## C3: mini-batch forward shape validation -/

/-- Claim C3 counterexample: the batch `[[0, 0], [0]]` against a 2-input
network contains an element (`[0]`, length 1) whose length disagrees with
the input layer's 2 nodes, yet `forwardPropWithBatch` succeeds rather than
raising the shape-mismatch error, because only `inputs[0]` is validated. -/
theorem forwardPropWithBatch_partial_validation_counterexample :
    ([(0 : ℝ)].length ≠ ((net21ex : Network ℝ).headD []).length) ∧
    exceptIsOk (forwardPropWithBatch (net21ex : Network ℝ) [[0, 0], [0]] Real.sqrt) = true :=
  ⟨by decide, rfl⟩

/-- Claim C3 (amended): `forwardPropWithBatch` raises the shape-mismatch
error iff the FIRST batch element's length differs from the number of
input-layer nodes; later batch elements are not validated. -/
theorem forwardPropWithBatch_shape_error_iff_first (L0 : List (Node ℝ))
    (ls : List (List (Node ℝ))) (input0 : List ℝ)
    (restInputs : List (List ℝ)) (sqrt : ℝ → ℝ) :
    forwardPropWithBatch (L0 :: ls) (input0 :: restInputs) sqrt
        = Except.error shapeMismatchMsg
      ↔ input0.length ≠ L0.length := by
  by_cases h : input0.length = L0.length
  · simp [forwardPropWithBatch, h]
  · simp [forwardPropWithBatch, h]

/-- A `[1, 1]` network whose single link carries weight `w`, regularization
`reg`, accumulated gradient `acc` with count `n`, and Adam moments `m`/`v`
(the state reached after back-propagation passes). -/
def netOneLink (w : K) (reg : Option RegKind) (acc : K) (n : ℕ) (m v : K) :
    Network K :=
  [[inNode],
   [mkNode (1 / 10) Activations.LINEAR
      [{ mkLink w reg with
         accErrorDer := acc, numAccumulatedDers := n,
         mWeight := m, vWeight := v }]]]

/-! ## C6: L1 pruning in the plain update -/

/-- Claim C6 counterexample: take a link with weight `1`, L1 regularization,
accumulated gradient `3/2` (count 1), and `learningRate = regularizationRate
= 1`.  The gradient step gives `w1 = -1/2`; the claim's candidate
`w1 - lr*rr*L1.der(w1)` is `1/2`, so the claim's zero-crossing product
`w1 * (w1 - lr*rr*L1.der(w1)) = -1/4` is negative and the claim demands
pruning — but the code evaluates `L1.der` at the pre-step weight `1`,
adopts `-3/2`, and leaves the link alive. -/
theorem updateWeights_l1_stale_regulDer_counterexample :
    ((1 : ℝ) - (1 / ((1 : ℕ) : ℝ)) * (3 / 2) = -(1 / 2)) ∧
    ((-(1 / 2) : ℝ) *
        (-(1 / 2) - 1 * 1 * RegularizationDer (Option.some RegKind.L1) (-(1 / 2) : ℝ)) < 0) ∧
    (linkAt (updateWeights (netOneLink (1 : ℝ) (Option.some RegKind.L1) (3 / 2) 1 0 0) 1 1)
        1 0 0).map (fun l => (l.isDead, l.weight)) =
      Option.some (false, -(3 / 2)) := by
  refine ⟨by norm_num, by norm_num [RegularizationDer], ?_⟩
  norm_num [updateWeights, updateNodePlain, updateLinkPlain, netOneLink, inNode,
    mkNode, mkLink, linkAt, nodeAt, RegularizationDer]

/-- Claim C6 (amended): in `updateWeights`, for a non-dead link with L1
regularization and accumulated gradients, after the gradient step
`w1 = weight - (lr/n) * accErrorDer` the candidate is
`newWeight = w1 - lr * rr * L1.der(weight)` with the regularization
derivative evaluated at the link's weight from BEFORE the gradient step; the
link is pruned (weight exactly `0`, permanently dead) iff `w1 * newWeight < 0`,
and otherwise adopts `newWeight`.  In particular a link with positive weight
that stays positive through the gradient step but is driven negative by the
regularization step alone ends pruned. -/
theorem updateWeights_l1_pruning_characterization (w acc lr rr : ℝ) (n : ℕ)
    (hn : 0 < n) :
    (linkAt (updateWeights (netOneLink w (Option.some RegKind.L1) acc n 0 0) lr rr)
        1 0 0 =
      Option.some
        (if (w - (lr / (n : ℝ)) * acc) *
            ((w - (lr / (n : ℝ)) * acc) -
              lr * rr * RegularizationDer (Option.some RegKind.L1) w) < 0 then
          { mkLink 0 (Option.some RegKind.L1) with isDead := true }
        else
          mkLink
            ((w - (lr / (n : ℝ)) * acc) -
              lr * rr * RegularizationDer (Option.some RegKind.L1) w)
            (Option.some RegKind.L1))) ∧
    (0 < w → 0 < w - (lr / (n : ℝ)) * acc →
      (w - (lr / (n : ℝ)) * acc) - lr * rr < 0 →
      linkAt (updateWeights (netOneLink w (Option.some RegKind.L1) acc n 0 0) lr rr)
          1 0 0 =
        Option.some { mkLink 0 (Option.some RegKind.L1) with isDead := true }) := by
  have hmain :
      linkAt (updateWeights (netOneLink w (Option.some RegKind.L1) acc n 0 0) lr rr)
          1 0 0 =
        Option.some
          (if (w - (lr / (n : ℝ)) * acc) *
              ((w - (lr / (n : ℝ)) * acc) -
                lr * rr * RegularizationDer (Option.some RegKind.L1) w) < 0 then
            { mkLink 0 (Option.some RegKind.L1) with isDead := true }
          else
            mkLink
              ((w - (lr / (n : ℝ)) * acc) -
                lr * rr * RegularizationDer (Option.some RegKind.L1) w)
              (Option.some RegKind.L1)) := by
    simp [updateWeights, updateNodePlain, updateLinkPlain, netOneLink, inNode,
      mkNode, mkLink, linkAt, nodeAt, hn]
  refine ⟨hmain, fun hw hw1 hneg => ?_⟩
  rw [hmain]
  have hder : RegularizationDer (Option.some RegKind.L1) w = 1 := by
    simp [RegularizationDer, hw, not_lt.mpr hw.le]
  rw [hder]
  rw [if_pos (mul_neg_of_pos_of_neg hw1 (by linarith))]

/-- Claim C6 witness: concrete instance of the amended pruning scenario,
`w = 1/10`, `acc = 1/100`, `lr = rr = 1`: the gradient step leaves `9/100 > 0`
and the regularization step drives it to `-91/100 < 0`, so the link ends
pruned. -/
theorem updateWeights_l1_pruning_characterization_witness :
    (0 < 1 ∧ (0 : ℝ) < 1 / 10 ∧
      (0 : ℝ) < 1 / 10 - (1 / ((1 : ℕ) : ℝ)) * (1 / 100) ∧
      ((1 : ℝ) / 10 - (1 / ((1 : ℕ) : ℝ)) * (1 / 100)) - 1 * 1 < 0) ∧
    linkAt
        (updateWeights (netOneLink (1 / 10 : ℝ) (Option.some RegKind.L1) (1 / 100) 1 0 0) 1 1)
        1 0 0 =
      Option.some { mkLink 0 (Option.some RegKind.L1) with isDead := true } :=
  ⟨⟨by norm_num, by norm_num, by norm_num, by norm_num⟩,
    (updateWeights_l1_pruning_characterization (1 / 10) (1 / 100) 1 1 1
      (by norm_num)).2 (by norm_num) (by norm_num) (by norm_num)⟩

/-! ## C2: the L1 pruning check in the Adam update -/

/-- Claim C2 counterexample: single L1 link, weight `3/2`, accumulated
gradient `1` (count 1), `alpha = rr = 1`, `t = 1`, `beta1 = beta2 = epsilon
= 0` (so the adaptive step is exactly `1`).  The pre-regularization
candidate is `1/2`, the fully regularized weight is `-1/2`, their product is
negative, so by the claim the link must be pruned — but
`updateWeightsWithAdam` compares `-1/2` with `-1/2 - alpha*rr*regulDer =
-3/2` (product positive) and leaves the link alive with weight `-1/2`. -/
theorem adam_l1_pruning_check_counterexample :
    (let g : ℝ := 1 / ((1 : ℕ) : ℝ)
     let mHat : ℝ := (0 * 0 + (1 - 0) * g) / (1 - (0 : ℝ) ^ (1 : ℕ))
     let vHat : ℝ := (0 * 0 + (1 - 0) * g * g) / (1 - (0 : ℝ) ^ (1 : ℕ))
     let adaptive : ℝ := mHat / (Real.sqrt vHat + 0)
     let preReg : ℝ := 3 / 2 - 1 * adaptive
     let full : ℝ := 3 / 2 -
       1 * (adaptive + 1 * RegularizationDer (Option.some RegKind.L1) (3 / 2 : ℝ))
     preReg * full < 0) ∧
    (linkAt
        (updateWeightsWithAdam (netOneLink (3 / 2 : ℝ) (Option.some RegKind.L1) 1 1 0 0)
          1 1 1 0 0 0 Real.sqrt)
        1 0 0).map (fun l => (l.isDead, l.weight)) =
      Option.some (false, -(1 / 2)) := by
  constructor
  · have h1 : ((0 * 0 + (1 - 0) * (1 / ((1 : ℕ) : ℝ)) * (1 / ((1 : ℕ) : ℝ))) /
        (1 - (0 : ℝ) ^ (1 : ℕ))) = 1 := by norm_num
    simp only [h1, Real.sqrt_one]
    norm_num [RegularizationDer]
  · norm_num [updateWeightsWithAdam, updateNodeAdam, updateLinkAdam, netOneLink,
      inNode, mkNode, mkLink, linkAt, nodeAt, RegularizationDer, Real.sqrt_one]

/-- Claim C2 (amended): in `updateWeightsWithAdam`, for a non-dead L1 link
with accumulated gradients, the zero-crossing check does NOT use the
pre-regularization candidate: it compares the fully updated weight
`w1 = w - alpha*(mHat/(sqrt vHat + eps) + rr*regulDer)` with
`w1 - alpha*rr*regulDer` (the regularization term subtracted a second time),
where `regulDer = L1.der(w)` at the pre-update weight, and prunes (weight
`0`, dead) exactly when that product is negative; otherwise the link keeps
`w1`.  Moment estimates are updated in either case. -/
theorem adam_l1_pruning_check_actual (w acc m v alpha rr beta1 beta2 epsilon : ℝ)
    (t n : ℕ) (sqrt : ℝ → ℝ) (hn : 0 < n) :
    linkAt
        (updateWeightsWithAdam (netOneLink w (Option.some RegKind.L1) acc n m v)
          alpha rr t beta1 beta2 epsilon sqrt)
        1 0 0 =
      Option.some
        (let g := acc / (n : ℝ)
         let m1 := beta1 * m + (1 - beta1) * g
         let v1 := beta2 * v + (1 - beta2) * g * g
         let regulDer := RegularizationDer (Option.some RegKind.L1) w
         let w1 := w - alpha *
           ((m1 / (1 - beta1 ^ t)) / (sqrt (v1 / (1 - beta2 ^ t)) + epsilon) +
             rr * regulDer)
         if w1 * (w1 - alpha * rr * regulDer) < 0 then
           { mkLink 0 (Option.some RegKind.L1) with
             isDead := true, mWeight := m1, vWeight := v1 }
         else
           { mkLink w1 (Option.some RegKind.L1) with
             mWeight := m1, vWeight := v1 }) := by
  simp [updateWeightsWithAdam, updateNodeAdam, updateLinkAdam, netOneLink,
    inNode, mkNode, mkLink, linkAt, nodeAt, hn]

/-- Claim C2 witness: the amended characterization evaluated at the
counterexample's concrete input. -/
theorem adam_l1_pruning_check_actual_witness :
    0 < 1 ∧
    linkAt
        (updateWeightsWithAdam (netOneLink (3 / 2 : ℝ) (Option.some RegKind.L1) 1 1 0 0)
          1 1 1 0 0 0 Real.sqrt)
        1 0 0 =
      Option.some
        (let g := (1 : ℝ) / ((1 : ℕ) : ℝ)
         let m1 := 0 * 0 + (1 - 0) * g
         let v1 := 0 * 0 + (1 - 0) * g * g
         let regulDer := RegularizationDer (Option.some RegKind.L1) (3 / 2 : ℝ)
         let w1 := 3 / 2 - 1 *
           ((m1 / (1 - 0 ^ (1 : ℕ))) / (Real.sqrt (v1 / (1 - 0 ^ (1 : ℕ))) + 0) +
             1 * regulDer)
         if w1 * (w1 - 1 * 1 * regulDer) < 0 then
           { mkLink 0 (Option.some RegKind.L1) with
             isDead := true, mWeight := m1, vWeight := v1 }
         else
           { mkLink w1 (Option.some RegKind.L1) with
             mWeight := m1, vWeight := v1 }) :=
  ⟨by decide,
    adam_l1_pruning_check_actual (3 / 2) 1 0 0 1 1 0 0 0 1 1 Real.sqrt (by decide)⟩

/-! ## C4: the accumulator reset law -/

/-- Every node's gradient accumulator and count are zero, and so are those of
every non-dead link. -/
def AccumulatorsReset (net : Network K) : Prop :=
  ∀ layer ∈ net, ∀ node ∈ layer,
    node.accInputDer = 0 ∧ node.numAccumulatedDers = 0 ∧
      ∀ link ∈ node.inputLinks, link.isDead = false →
        link.accErrorDer = 0 ∧ link.numAccumulatedDers = 0

lemma updateLinkPlain_resets (lr rr : K) (link : Link K)
    (h : link.numAccumulatedDers = 0 → link.accErrorDer = 0) :
    (updateLinkPlain lr rr link).isDead = false →
      (updateLinkPlain lr rr link).accErrorDer = 0 ∧
        (updateLinkPlain lr rr link).numAccumulatedDers = 0 := by
  unfold updateLinkPlain
  by_cases hd : link.isDead
  · simp [hd]
  · by_cases hnum : link.numAccumulatedDers > 0
    · simp only [hd, hnum, if_true, if_false, Bool.false_eq_true]
      split <;> intro _ <;> exact ⟨rfl, rfl⟩
    · have h0 : link.numAccumulatedDers = 0 := Nat.eq_zero_of_not_pos hnum
      simp [hd, hnum, h h0, h0]

lemma updateLinkAdam_resets (sqrt : K → K) (alpha rr : K) (t : ℕ)
    (beta1 beta2 epsilon : K) (link : Link K)
    (h : link.numAccumulatedDers = 0 → link.accErrorDer = 0) :
    (updateLinkAdam sqrt alpha rr t beta1 beta2 epsilon link).isDead = false →
      (updateLinkAdam sqrt alpha rr t beta1 beta2 epsilon link).accErrorDer = 0 ∧
        (updateLinkAdam sqrt alpha rr t beta1 beta2 epsilon link).numAccumulatedDers = 0 := by
  unfold updateLinkAdam
  by_cases hd : link.isDead
  · simp [hd]
  · by_cases hnum : link.numAccumulatedDers > 0
    · simp only [hd, hnum, if_true, if_false, Bool.false_eq_true]
      split <;> intro _ <;> exact ⟨rfl, rfl⟩
    · have h0 : link.numAccumulatedDers = 0 := Nat.eq_zero_of_not_pos hnum
      simp [hd, hnum, h h0, h0]

lemma updateNodePlain_resets (lr rr : K) (node : Node K)
    (hn : node.numAccumulatedDers = 0 → node.accInputDer = 0)
    (hl : ∀ link ∈ node.inputLinks,
      link.numAccumulatedDers = 0 → link.accErrorDer = 0) :
    (updateNodePlain lr rr node).accInputDer = 0 ∧
    (updateNodePlain lr rr node).numAccumulatedDers = 0 ∧
      ∀ link ∈ (updateNodePlain lr rr node).inputLinks, link.isDead = false →
        link.accErrorDer = 0 ∧ link.numAccumulatedDers = 0 := by
  unfold updateNodePlain
  by_cases hnum : node.numAccumulatedDers > 0
  · refine ⟨by simp [hnum], by simp [hnum], ?_⟩
    intro link hmem
    simp only [hnum, if_true, List.mem_map] at hmem
    obtain ⟨l₀, hl₀, rfl⟩ := hmem
    exact updateLinkPlain_resets lr rr l₀ (hl l₀ hl₀)
  · have h0 : node.numAccumulatedDers = 0 := Nat.eq_zero_of_not_pos hnum
    refine ⟨by simp [hnum, hn h0], by simp [hnum, h0], ?_⟩
    intro link hmem
    simp only [hnum, if_false, List.mem_map] at hmem
    obtain ⟨l₀, hl₀, rfl⟩ := hmem
    exact updateLinkPlain_resets lr rr l₀ (hl l₀ hl₀)

lemma updateNodeAdam_resets (sqrt : K → K) (alpha rr : K) (t : ℕ)
    (beta1 beta2 epsilon : K) (node : Node K)
    (hn : node.numAccumulatedDers = 0 → node.accInputDer = 0)
    (hl : ∀ link ∈ node.inputLinks,
      link.numAccumulatedDers = 0 → link.accErrorDer = 0) :
    (updateNodeAdam sqrt alpha rr t beta1 beta2 epsilon node).accInputDer = 0 ∧
    (updateNodeAdam sqrt alpha rr t beta1 beta2 epsilon node).numAccumulatedDers = 0 ∧
      ∀ link ∈ (updateNodeAdam sqrt alpha rr t beta1 beta2 epsilon node).inputLinks,
        link.isDead = false →
          link.accErrorDer = 0 ∧ link.numAccumulatedDers = 0 := by
  unfold updateNodeAdam
  by_cases hnum : node.numAccumulatedDers > 0
  · refine ⟨by simp [hnum], by simp [hnum], ?_⟩
    intro link hmem
    simp only [hnum, if_true, List.mem_map] at hmem
    obtain ⟨l₀, hl₀, rfl⟩ := hmem
    exact updateLinkAdam_resets sqrt alpha rr t beta1 beta2 epsilon l₀ (hl l₀ hl₀)
  · have h0 : node.numAccumulatedDers = 0 := Nat.eq_zero_of_not_pos hnum
    refine ⟨by simp [hnum, hn h0], by simp [hnum, h0], ?_⟩
    intro link hmem
    simp only [hnum, if_false, List.mem_map] at hmem
    obtain ⟨l₀, hl₀, rfl⟩ := hmem
    exact updateLinkAdam_resets sqrt alpha rr t beta1 beta2 epsilon l₀ (hl l₀ hl₀)

/-- Claim C4: after `updateWeights` or `updateWeightsWithAdam`, every node's
`accInputDer`/`numAccumulatedDers` and every non-dead link's
`accErrorDer`/`numAccumulatedDers` are exactly zero.  The hypotheses are the
invariants every reachable state satisfies: input-layer nodes (never visited
by `backProp` or the updates) have no links and empty accumulators, and an
accumulator is only ever nonzero together with its count. -/
theorem update_resets_accumulators (L0 : List (Node ℝ))
    (rest : List (List (Node ℝ))) (lr rr : ℝ) (t : ℕ)
    (beta1 beta2 epsilon : ℝ) (sqrt : ℝ → ℝ)
    (h0 : ∀ node ∈ L0,
      node.inputLinks = [] ∧ node.numAccumulatedDers = 0 ∧ node.accInputDer = 0)
    (hnode : ∀ layer ∈ rest, ∀ node ∈ layer,
      node.numAccumulatedDers = 0 → node.accInputDer = 0)
    (hlink : ∀ layer ∈ rest, ∀ node ∈ layer, ∀ link ∈ node.inputLinks,
      link.numAccumulatedDers = 0 → link.accErrorDer = 0) :
    AccumulatorsReset (updateWeights (L0 :: rest) lr rr) ∧
    AccumulatorsReset
      (updateWeightsWithAdam (L0 :: rest) lr rr t beta1 beta2 epsilon sqrt) := by
  constructor
  · intro layer hlayer node hnodeMem
    simp only [updateWeights, List.mem_cons, List.mem_map] at hlayer
    rcases hlayer with rfl | ⟨l₀, hl₀, rfl⟩
    · obtain ⟨hlinks, hnum, hacc⟩ := h0 node hnodeMem
      exact ⟨hacc, hnum, by simp [hlinks]⟩
    · simp only [List.mem_map] at hnodeMem
      obtain ⟨n₀, hn₀, rfl⟩ := hnodeMem
      exact updateNodePlain_resets lr rr n₀ (hnode l₀ hl₀ n₀ hn₀)
        (hlink l₀ hl₀ n₀ hn₀)
  · intro layer hlayer node hnodeMem
    simp only [updateWeightsWithAdam, List.mem_cons, List.mem_map] at hlayer
    rcases hlayer with rfl | ⟨l₀, hl₀, rfl⟩
    · obtain ⟨hlinks, hnum, hacc⟩ := h0 node hnodeMem
      exact ⟨hacc, hnum, by simp [hlinks]⟩
    · simp only [List.mem_map] at hnodeMem
      obtain ⟨n₀, hn₀, rfl⟩ := hnodeMem
      exact updateNodeAdam_resets sqrt lr rr t beta1 beta2 epsilon n₀
        (hnode l₀ hl₀ n₀ hn₀) (hlink l₀ hl₀ n₀ hn₀)

/-- Claim C4 witness: the reset law on a concrete `[1, 1]` network with one
accumulated gradient on its node and link. -/
theorem update_resets_accumulators_witness :
    AccumulatorsReset
      (updateWeights
        ([inNode] ::
          [[mkNode 0 Activations.LINEAR
              [{ mkLink 1 Option.none with
                 accErrorDer := 2, numAccumulatedDers := 1 }]]] : Network ℝ)
        1 0) ∧
    AccumulatorsReset
      (updateWeightsWithAdam
        ([inNode] ::
          [[mkNode 0 Activations.LINEAR
              [{ mkLink 1 Option.none with
                 accErrorDer := 2, numAccumulatedDers := 1 }]]] : Network ℝ)
        1 0 1 (9 / 10) (999 / 1000) (1 / 100000000) Real.sqrt) :=
  update_resets_accumulators [inNode] _ 1 0 1 (9 / 10) (999 / 1000)
    (1 / 100000000) Real.sqrt
    (by simp [inNode, mkNode])
    (by intro layer hlayer node hnodeMem _
        simp only [List.mem_singleton] at hlayer
        subst hlayer
        simp only [List.mem_singleton] at hnodeMem
        subst hnodeMem
        rfl)
    (by intro layer hlayer node hnodeMem link hlinkMem hnum
        simp only [List.mem_singleton] at hlayer
        subst hlayer
        simp only [List.mem_singleton] at hnodeMem
        subst hnodeMem
        simp only [mkNode, List.mem_singleton] at hlinkMem
        subst hlinkMem
        exact absurd hnum Nat.one_ne_zero)

/-! ## C5: dead-link monotonicity

Every engine call either leaves a node's `inputLinks` untouched, or maps
them with a per-link function that fixes dead links; hence a dead link is
preserved, with all its fields, by any sequence of calls. -/

lemma linkAt_eq_nodeAt (net : Network K) (i j k : ℕ) :
    linkAt net i j k = (nodeAt net i j).bind (fun node => node.inputLinks.get? k) :=
  rfl

/-- `layer'` has positionally the same input-link lists as `layer`. -/
def LayerLinksEq (layer layer' : List (Node K)) : Prop :=
  ∀ j, (layer'.get? j).map Node.inputLinks = (layer.get? j).map Node.inputLinks

/-- `net'` has positionally the same input-link lists as `net`. -/
def PreservesLinks (net net' : Network K) : Prop :=
  ∀ i j, (nodeAt net' i j).map Node.inputLinks = (nodeAt net i j).map Node.inputLinks

/-- Every dead link of `net` is still present, unchanged, in `net'`. -/
def PreservesDead (net net' : Network K) : Prop :=
  ∀ i j k l, linkAt net i j k = Option.some l → l.isDead = true →
    linkAt net' i j k = Option.some l

lemma LayerLinksEq.refl_layer (layer : List (Node K)) : LayerLinksEq layer layer :=
  fun _ => rfl

lemma PreservesDead.refl_net (net : Network K) : PreservesDead net net :=
  fun _ _ _ _ h _ => h

lemma PreservesDead.trans_net {net₁ net₂ net₃ : Network K}
    (h₁ : PreservesDead net₁ net₂) (h₂ : PreservesDead net₂ net₃) :
    PreservesDead net₁ net₃ :=
  fun i j k l h hd => h₂ i j k l (h₁ i j k l h hd) hd

lemma PreservesLinks.preservesDead {net net' : Network K}
    (h : PreservesLinks net net') : PreservesDead net net' := by
  intro i j k l hl hd
  rw [linkAt_eq_nodeAt] at hl ⊢
  cases hn : nodeAt net i j with
  | none => rw [hn] at hl; simp at hl
  | some node =>
    rw [hn] at hl
    have hm := h i j
    rw [hn] at hm
    cases hn' : nodeAt net' i j with
    | none => rw [hn'] at hm; simp at hm
    | some node' =>
      rw [hn'] at hm
      simp only [Option.map_some'] at hm
      have : node'.inputLinks = node.inputLinks := by injection hm
      simpa [this] using hl

lemma get?_map_links (f : Node K → Node K)
    (hf : ∀ node, (f node).inputLinks = node.inputLinks)
    (layer : List (Node K)) : LayerLinksEq layer (layer.map f) := by
  intro j
  rw [List.get?_map]
  cases layer.get? j <;> simp [hf]

lemma get?_enum_map_links (f : ℕ × Node K → Node K)
    (hf : ∀ p, (f p).inputLinks = p.2.inputLinks)
    (layer : List (Node K)) : LayerLinksEq layer (layer.enum.map f) := by
  intro j
  rw [List.get?_map, List.get?_enum]
  cases layer.get? j <;> simp [hf]

lemma LayerLinksEq.trans_layer {a b c : List (Node K)}
    (h₁ : LayerLinksEq a b) (h₂ : LayerLinksEq b c) : LayerLinksEq a c :=
  fun j => (h₂ j).trans (h₁ j)

lemma layerNormalize_linksEq (sqrt : K → K) (layer : List (Node K)) :
    LayerLinksEq layer (layerNormalize sqrt layer) := by
  unfold layerNormalize
  apply get?_map_links
  intro node
  rfl

lemma updateOutput_layer_linksEq (prev layer : List (Node K)) :
    LayerLinksEq layer (layer.map (updateOutput prev)) := by
  apply get?_map_links
  intro node
  rfl

lemma setInputOutputs_linksEq (inputLayer : List (Node K)) (inputs : List K) :
    LayerLinksEq inputLayer (setInputOutputs inputLayer inputs) := by
  unfold setInputOutputs
  apply get?_enum_map_links
  intro p
  rfl

lemma setBatchInputs_linksEq (inputLayer : List (Node K))
    (inputs : List (List K)) :
    LayerLinksEq inputLayer (setBatchInputs inputLayer inputs) := by
  unfold setBatchInputs
  apply get?_enum_map_links
  intro p
  rfl

lemma forwardLayers_preservesLinks (sqrt : K → K) (normalization : String)
    (prev : List (Node K)) (layers : Network K) :
    PreservesLinks layers (forwardLayers sqrt normalization prev layers) := by
  induction layers generalizing prev with
  | nil => intro i j; rfl
  | cons layer rest ih =>
    intro i j
    show (nodeAt (_ :: forwardLayers sqrt normalization _ rest) i j).map _ = _
    cases i with
    | zero =>
      show ((_ : List (Node K)).get? j).map _ = ((layer.get? j).map _)
      by_cases hc : normalization = "Layer" ∧ rest.isEmpty = false
      · rw [if_pos hc]
        exact ((updateOutput_layer_linksEq prev layer).trans_layer
          (layerNormalize_linksEq sqrt _)) j
      · rw [if_neg hc]
        exact updateOutput_layer_linksEq prev layer j
    | succ i =>
      exact ih (if normalization = "Layer" ∧ rest.isEmpty = false then
        layerNormalize sqrt (layer.map (updateOutput prev))
      else layer.map (updateOutput prev)) i j

lemma forwardPropD_preservesLinks (net : Network K) (inputs : List K)
    (normalization : String) (sqrt : K → K) :
    PreservesLinks net (forwardPropD net inputs normalization sqrt) := by
  unfold forwardPropD forwardProp
  cases net with
  | nil => intro i j; rfl
  | cons L0 rest =>
    by_cases h : inputs.length = L0.length
    · simp only [h, ne_eq, not_true_eq_false, if_false]
      intro i j
      cases i with
      | zero => exact setInputOutputs_linksEq L0 inputs j
      | succ i =>
        exact forwardLayers_preservesLinks sqrt normalization
          (setInputOutputs L0 inputs) rest i j
    · simp only [ne_eq, h, not_false_eq_true, if_true]
      intro i j; rfl

lemma batchLayerPass_linksEq (sqrt : K → K) (isLast : Bool)
    (prev layer : List (Node K)) :
    LayerLinksEq layer (batchLayerPass sqrt isLast prev layer) := by
  unfold batchLayerPass
  apply get?_map_links
  intro node
  cases isLast <;> rfl

lemma iterate_batchLayerPass_linksEq (sqrt : K → K) (isLast : Bool)
    (prev : List (Node K)) (n : ℕ) (layer : List (Node K)) :
    LayerLinksEq layer ((batchLayerPass sqrt isLast prev)^[n] layer) := by
  induction n generalizing layer with
  | zero => exact LayerLinksEq.refl_layer layer
  | succ n ih =>
    rw [Function.iterate_succ_apply]
    exact (batchLayerPass_linksEq sqrt isLast prev layer).trans_layer
      (ih (batchLayerPass sqrt isLast prev layer))

lemma forwardBatchLayers_preservesLinks (sqrt : K → K) (batchCount : ℕ)
    (prev : List (Node K)) (layers : Network K) :
    PreservesLinks layers (forwardBatchLayers sqrt batchCount prev layers) := by
  induction layers generalizing prev with
  | nil => intro i j; rfl
  | cons layer rest ih =>
    intro i j
    cases i with
    | zero =>
      exact iterate_batchLayerPass_linksEq sqrt rest.isEmpty prev batchCount layer j
    | succ i =>
      exact ih ((batchLayerPass sqrt rest.isEmpty prev)^[batchCount] layer) i j

lemma forwardPropWithBatchD_preservesLinks (net : Network K)
    (inputs : List (List K)) (sqrt : K → K) :
    PreservesLinks net (forwardPropWithBatchD net inputs sqrt) := by
  unfold forwardPropWithBatchD forwardPropWithBatch
  cases net with
  | nil => intro i j; rfl
  | cons L0 rest =>
    by_cases h : (inputs.headD []).length = L0.length
    · simp only [h, ne_eq, not_true_eq_false, if_false]
      intro i j
      cases i with
      | zero => exact setBatchInputs_linksEq L0 inputs j
      | succ i =>
        exact forwardBatchLayers_preservesLinks sqrt inputs.length
          (setBatchInputs L0 inputs) rest i j
    · simp only [ne_eq, h, not_false_eq_true, if_true]
      intro i j; rfl

/-- Every dead link of `layer` is still present, unchanged, in `layer'`. -/
def LayerPreservesDead (layer layer' : List (Node K)) : Prop :=
  ∀ j k l,
    (layer.get? j).bind (fun n => n.inputLinks.get? k) = Option.some l →
    l.isDead = true →
    (layer'.get? j).bind (fun n => n.inputLinks.get? k) = Option.some l

lemma LayerPreservesDead.trans_dead {a b c : List (Node K)}
    (h₁ : LayerPreservesDead a b) (h₂ : LayerPreservesDead b c) :
    LayerPreservesDead a c :=
  fun j k l h hd => h₂ j k l (h₁ j k l h hd) hd

lemma LayerLinksEq.layerPreservesDead {layer layer' : List (Node K)}
    (h : LayerLinksEq layer layer') : LayerPreservesDead layer layer' := by
  intro j k l hl hd
  cases hj : layer.get? j with
  | none => rw [hj] at hl; simp at hl
  | some node =>
    rw [hj] at hl
    have hm := h j
    rw [hj] at hm
    cases hj' : layer'.get? j with
    | none => rw [hj'] at hm; simp at hm
    | some node' =>
      rw [hj'] at hm
      simp only [Option.map_some'] at hm
      have : node'.inputLinks = node.inputLinks := by injection hm
      simpa [this] using hl

lemma map_node_layerPreservesDead (F : Node K → Node K)
    (hF : ∀ node k l, node.inputLinks.get? k = Option.some l →
      l.isDead = true → (F node).inputLinks.get? k = Option.some l)
    (layer : List (Node K)) : LayerPreservesDead layer (layer.map F) := by
  intro j k l h hd
  rw [List.get?_map]
  cases hj : layer.get? j with
  | none => rw [hj] at h; simp at h
  | some node =>
    rw [hj] at h
    simp only [Option.some_bind] at h
    simp only [Option.map_some', Option.some_bind]
    exact hF node k l h hd

lemma backPropNodes_linksEq (projTI : Node K → K) (layer : List (Node K)) :
    LayerLinksEq layer (backPropNodes projTI layer) := by
  unfold backPropNodes
  apply get?_map_links
  intro node
  rfl

lemma setOutputDers_linksEq (layer : List (Node K)) (ds : List K) :
    LayerLinksEq layer (setOutputDers layer ds) := by
  unfold setOutputDers
  apply get?_enum_map_links
  intro p
  rfl

lemma backPropLinks_layerPreservesDead (projOut : Node K → K)
    (prev layer : List (Node K)) :
    LayerPreservesDead layer (backPropLinks projOut prev layer) := by
  unfold backPropLinks
  apply map_node_layerPreservesDead
  intro node k l h hd
  show (node.inputLinks.enum.map _).get? k = Option.some l
  rw [List.get?_map, List.get?_enum, h]
  simp [hd]

lemma backPropAux_preservesDead (projTI projOut : Node K → K) :
    ∀ (layers : Network K) (src : List (Node K)),
      PreservesDead layers (backPropAux projTI projOut src layers).1 := by
  intro layers
  induction layers with
  | nil => intro src i j k l h _; exact h
  | cons layer rest ih =>
    intro src i j k l h hd
    cases i with
    | zero =>
      have h₁ : LayerPreservesDead layer
          (if rest.isEmpty then layer
           else setOutputDers layer (backPropAux projTI projOut layer rest).2) := by
        split
        · exact fun _ _ _ hx _ => hx
        · exact (setOutputDers_linksEq layer _).layerPreservesDead
      have h₂ := (backPropNodes_linksEq (K := K) projTI
        (if rest.isEmpty then layer
         else setOutputDers layer (backPropAux projTI projOut layer rest).2)).layerPreservesDead
      have h₃ := backPropLinks_layerPreservesDead (K := K) projOut src
        (backPropNodes projTI
          (if rest.isEmpty then layer
           else setOutputDers layer (backPropAux projTI projOut layer rest).2))
      exact (h₁.trans_dead (h₂.trans_dead h₃)) j k l h hd
    | succ i => exact ih layer i j k l h hd

lemma modifyHead_linksEq (f : Node K → Node K)
    (hf : ∀ node, (f node).inputLinks = node.inputLinks)
    (layer : List (Node K)) : LayerLinksEq layer (modifyHead f layer) := by
  intro j
  cases layer with
  | nil => rfl
  | cons a rest =>
    cases j with
    | zero => simp [modifyHead, hf]
    | succ j => rfl

lemma modifyLast_preservesLinks (F : List (Node K) → List (Node K))
    (hF : ∀ layer, LayerLinksEq layer (F layer)) (layers : Network K) :
    PreservesLinks layers (modifyLast F layers) := by
  induction layers with
  | nil => intro i j; rfl
  | cons a rest ih =>
    cases rest with
    | nil =>
      intro i j
      cases i with
      | zero => exact hF a j
      | succ i => rfl
    | cons b rest' =>
      intro i j
      cases i with
      | zero => rfl
      | succ i => exact ih i j

lemma backPropWith_preservesDead (projTI projOut : Node K → K)
    (net : Network K) (target : K) (errorFunc : ErrorFunction K) :
    PreservesDead net (backPropWith projTI projOut net target errorFunc) := by
  unfold backPropWith
  cases net with
  | nil => intro i j k l h _; exact h
  | cons L0 rest =>
    cases rest with
    | nil =>
      intro i j k l h hd
      cases i with
      | zero =>
        exact (modifyHead_linksEq (setTargetDer projOut target errorFunc)
          (fun _ => rfl) L0).layerPreservesDead j k l h hd
      | succ i => exact h
    | cons L1 rest' =>
      intro i j k l h hd
      cases i with
      | zero => exact h
      | succ i =>
        have hm := (modifyLast_preservesLinks
          (modifyHead (setTargetDer projOut target errorFunc))
          (fun layer => modifyHead_linksEq
            (setTargetDer projOut target errorFunc) (fun _ => rfl) layer)
          (L1 :: rest')).preservesDead
        exact backPropAux_preservesDead projTI projOut
          (modifyLast (modifyHead (setTargetDer projOut target errorFunc)) (L1 :: rest'))
          L0 i j k l (hm i j k l h hd) hd

lemma backPropWithBatch_preservesDead (net : Network K) (targets : List K)
    (errorFunc : ErrorFunction K) :
    PreservesDead net (backPropWithBatch net targets errorFunc) := by
  unfold backPropWithBatch
  generalize targets.enum = pairs
  induction pairs generalizing net with
  | nil => exact PreservesDead.refl_net net
  | cons p ps ih =>
    exact (backPropWith_preservesDead _ _ net p.2 errorFunc).trans_net
      (ih (backPropBatchPass p.1 net p.2 errorFunc))

lemma updateLinkPlain_dead (lr rr : K) (link : Link K)
    (hd : link.isDead = true) : updateLinkPlain lr rr link = link := by
  unfold updateLinkPlain
  simp [hd]

lemma updateLinkAdam_dead (sqrt : K → K) (alpha rr : K) (t : ℕ)
    (beta1 beta2 epsilon : K) (link : Link K) (hd : link.isDead = true) :
    updateLinkAdam sqrt alpha rr t beta1 beta2 epsilon link = link := by
  unfold updateLinkAdam
  simp [hd]

lemma map_map_preservesDead (F : Node K → Node K)
    (hF : ∀ node k l, node.inputLinks.get? k = Option.some l →
      l.isDead = true → (F node).inputLinks.get? k = Option.some l)
    (layers : Network K) :
    PreservesDead layers (layers.map (List.map F)) := by
  intro i j k l h hd
  rw [linkAt_eq_nodeAt] at h ⊢
  unfold nodeAt at h ⊢
  rw [List.get?_map]
  cases hi : layers.get? i with
  | none => rw [hi] at h; simp at h
  | some layer =>
    rw [hi] at h
    simp only [Option.some_bind] at h
    simp only [Option.map_some', Option.some_bind]
    exact map_node_layerPreservesDead F hF layer j k l h hd

lemma updateNodePlain_preservesDeadLink (lr rr : K) (node : Node K) (k : ℕ)
    (l : Link K) (h : node.inputLinks.get? k = Option.some l)
    (hd : l.isDead = true) :
    (updateNodePlain lr rr node).inputLinks.get? k = Option.some l := by
  simp only [updateNodePlain]
  split <;>
    simp only [List.get?_map, h, Option.map_some',
      updateLinkPlain_dead lr rr l hd]

lemma updateNodeAdam_preservesDeadLink (sqrt : K → K) (alpha rr : K) (t : ℕ)
    (beta1 beta2 epsilon : K) (node : Node K) (k : ℕ) (l : Link K)
    (h : node.inputLinks.get? k = Option.some l) (hd : l.isDead = true) :
    (updateNodeAdam sqrt alpha rr t beta1 beta2 epsilon node).inputLinks.get? k
      = Option.some l := by
  simp only [updateNodeAdam]
  split <;>
    simp only [List.get?_map, h, Option.map_some',
      updateLinkAdam_dead sqrt alpha rr t beta1 beta2 epsilon l hd]

lemma updateWeights_preservesDead (net : Network K) (lr rr : K) :
    PreservesDead net (updateWeights net lr rr) := by
  unfold updateWeights
  cases net with
  | nil => exact PreservesDead.refl_net []
  | cons L0 rest =>
    intro i j k l h hd
    cases i with
    | zero => exact h
    | succ i =>
      exact map_map_preservesDead (updateNodePlain lr rr)
        (fun node k l h hd => updateNodePlain_preservesDeadLink lr rr node k l h hd)
        rest i j k l h hd

lemma updateWeightsWithAdam_preservesDead (net : Network K) (lr rr : K)
    (t : ℕ) (beta1 beta2 epsilon : K) (sqrt : K → K) :
    PreservesDead net (updateWeightsWithAdam net lr rr t beta1 beta2 epsilon sqrt) := by
  unfold updateWeightsWithAdam
  cases net with
  | nil => exact PreservesDead.refl_net []
  | cons L0 rest =>
    intro i j k l h hd
    cases i with
    | zero => exact h
    | succ i =>
      exact map_map_preservesDead
        (updateNodeAdam sqrt lr rr t beta1 beta2 epsilon)
        (fun node k l h hd =>
          updateNodeAdam_preservesDeadLink sqrt lr rr t beta1 beta2 epsilon
            node k l h hd)
        rest i j k l h hd

lemma applyStep_preservesDead (sqrt : K → K) (net : Network K)
    (s : TrainStep K) : PreservesDead net (applyStep sqrt net s) := by
  cases s with
  | forward inputs normalization =>
    exact (forwardPropD_preservesLinks net inputs normalization sqrt).preservesDead
  | forwardBatch inputs =>
    exact (forwardPropWithBatchD_preservesLinks net inputs sqrt).preservesDead
  | backward target errorFunc =>
    exact backPropWith_preservesDead _ _ net target errorFunc
  | backwardBatch targets errorFunc =>
    exact backPropWithBatch_preservesDead net targets errorFunc
  | updatePlain lr rr => exact updateWeights_preservesDead net lr rr
  | updateAdam lr rr t beta1 beta2 epsilon =>
    exact updateWeightsWithAdam_preservesDead net lr rr t beta1 beta2 epsilon sqrt

/-- Claim C5: once a link is dead it stays dead forever: across any sequence
of forward (single or batch), backward (single or batch), and update (plain
or Adam) calls, a dead link is still present at its position with ALL its
fields unchanged — in particular `isDead` stays `true`, its weight never
changes, and its `accErrorDer`/`numAccumulatedDers` are never touched again
(it is excluded from gradient accumulation and weight update). -/
theorem dead_link_monotone (sqrt : ℝ → ℝ) (net : Network ℝ)
    (steps : List (TrainStep ℝ)) (i j k : ℕ) (l : Link ℝ)
    (hl : linkAt net i j k = Option.some l) (hd : l.isDead = true) :
    linkAt (runSteps sqrt net steps) i j k = Option.some l := by
  induction steps generalizing net with
  | nil => exact hl
  | cons s rest ih =>
    exact ih (applyStep sqrt net s)
      (applyStep_preservesDead sqrt net s i j k l hl hd)

/-- Claim C5 witness: a concrete `[1, 1]` network whose link is dead is run
through a forward, batch-forward, backward, batch-backward, plain-update and
Adam-update sequence; the link survives unchanged. -/
theorem dead_link_monotone_witness :
    (linkAt
        ([[inNode],
          [mkNode 0 Activations.LINEAR
            [{ mkLink 0 (Option.some RegKind.L1) with isDead := true }]]] : Network ℝ)
        1 0 0 =
      Option.some { mkLink 0 (Option.some RegKind.L1) with isDead := true } ∧
     ({ mkLink (0 : ℝ) (Option.some RegKind.L1) with isDead := true }).isDead = true) ∧
    linkAt
        (runSteps Real.sqrt
          [[inNode],
           [mkNode 0 Activations.LINEAR
             [{ mkLink 0 (Option.some RegKind.L1) with isDead := true }]]]
          [TrainStep.forward [1] "none",
           TrainStep.forwardBatch [[1]],
           TrainStep.backward 0 Errors.SQUARE,
           TrainStep.backwardBatch [0] Errors.SQUARE,
           TrainStep.updatePlain (1 / 10) (1 / 100),
           TrainStep.updateAdam (1 / 10) (1 / 100) 1 (9 / 10) (999 / 1000)
             (1 / 100000000)])
        1 0 0 =
      Option.some { mkLink 0 (Option.some RegKind.L1) with isDead := true } :=
  ⟨⟨rfl, rfl⟩, dead_link_monotone Real.sqrt _ _ 1 0 0 _ rfl rfl⟩

/-! ## C10: the mini-batch forward pass always batch-normalizes -/

/-- A `[1, 1, 1]` network with linear activations, default normalization
parameters, hidden bias/weight `b1`/`w1` and output bias/weight `b2`/`w2`. -/
def net111 (b1 w1 b2 w2 : K) : Network K :=
  [[inNode],
   [mkNode b1 Activations.LINEAR [mkLink w1 Option.none]],
   [mkNode b2 Activations.LINEAR [mkLink w2 Option.none]]]

/-- Claim C10: `forwardPropWithBatch` takes no normalization-mode argument
and batch-normalizes every non-output-layer node on every call: on the
singleton batch `[[x]]` the hidden node's batch output collapses to its
`bnBeta = 0` (mean equals the sample, variance `0`), and the network's batch
output is `[b2]` — whereas `forwardProp` with mode `"none"` leaves the hidden
output raw at `b1 + w1*x` and returns `b2 + w2*(b1 + w1*x)`. -/
theorem forwardPropWithBatch_unconditional_normalization (b1 w1 b2 w2 x : ℝ) :
    batchOutputAt (forwardPropWithBatchD (net111 b1 w1 b2 w2) [[x]] Real.sqrt)
        1 0 = [(0 : ℝ)] ∧
    batchOutputAt (forwardPropWithBatchD (net111 b1 w1 b2 w2) [[x]] Real.sqrt)
        2 0 = [b2] ∧
    outputAt (forwardPropD (net111 b1 w1 b2 w2) [x] "none" Real.sqrt) 1 0
        = b1 + w1 * x ∧
    outputValue (forwardPropD (net111 b1 w1 b2 w2) [x] "none" Real.sqrt)
        = b2 + w2 * (b1 + w1 * x) := by
  have hs : ("none" : String) ≠ "Layer" := by decide
  refine ⟨?_, ?_, ?_, ?_⟩ <;>
    norm_num [forwardPropWithBatchD, forwardPropWithBatch, forwardBatchLayers,
      batchLayerPass, updateBatchOutput, batchNormalizeNode, setBatchInputs,
      forwardPropD, forwardProp, forwardLayers, updateOutput, setInputOutputs,
      net111, inNode, mkNode, mkLink, dummyNode, batchOutputAt, outputAt,
      outputValue, nodeAt, Activations.LINEAR, hs, List.range_succ,
      List.range_zero, Function.comp]

/-! ## C8: batch normalization is per node, across the batch -/

lemma foldl_add_map (f : α → K) (l : List α) :
    l.foldl (fun acc x => acc + f x) 0 = (l.map f).sum := by
  rw [List.sum_eq_foldl, List.foldl_map]

lemma foldl_add_id (l : List K) :
    l.foldl (fun acc x => acc + x) 0 = l.sum := by
  rw [List.sum_eq_foldl]

/-- A `[1, 2, 1]` network with linear activations and default normalization
parameters. -/
def net121 (a1 u1 a2 u2 c v1 v2 : K) : Network K :=
  [[inNode],
   [mkNode a1 Activations.LINEAR [mkLink u1 Option.none],
    mkNode a2 Activations.LINEAR [mkLink u2 Option.none]],
   [mkNode c Activations.LINEAR [mkLink v1 Option.none, mkLink v2 Option.none]]]

/-- Claim C8: `Node.batchNormalization` computes its mean and biased
(divide-by-N) variance over that single node's `batchOutput` array and
rescales each entry to `bnGamma * (x - mean)/sqrt(variance + bnEpsilon) +
bnBeta` (first conjunct, for every node); in the mini-batch forward pass the
two hidden nodes of a `[1,2,1]` network are rescaled each with its OWN
statistics over the batch dimension, not pooled across the layer (second
conjunct); concretely `batchOutput = [1,2,3,4]` with `gamma = 1, beta = 0`
gives mean `5/2`, variance `5/4`, entries `(x - 5/2)/sqrt(5/4 + eps)`
(third conjunct). -/
theorem batch_normalization_per_node (sq : ℝ → ℝ) (node : Node ℝ)
    (a1 u1 a2 u2 c v1 v2 x1 x2 eps : ℝ) :
    ((batchNormalizeNode sq node).batchOutput =
      node.batchOutput.map (fun x =>
        node.bnGamma *
          ((x - node.batchOutput.sum / (node.batchOutput.length : ℝ)) /
            sq ((node.batchOutput.map (fun y =>
                  (y - node.batchOutput.sum / (node.batchOutput.length : ℝ)) ^ 2)).sum /
                (node.batchOutput.length : ℝ) + node.bnEpsilon)) + node.bnBeta)) ∧
    (batchOutputAt (forwardPropWithBatchD (net121 a1 u1 a2 u2 c v1 v2)
          [[x1], [x2]] Real.sqrt) 1 0 =
        [((a1 + u1 * x1) - ((a1 + u1 * x1) + (a1 + u1 * x2)) / 2) /
            Real.sqrt
              ((((a1 + u1 * x1) - ((a1 + u1 * x1) + (a1 + u1 * x2)) / 2) ^ 2 +
                  ((a1 + u1 * x2) - ((a1 + u1 * x1) + (a1 + u1 * x2)) / 2) ^ 2) / 2 +
                1 / 100000000),
          ((a1 + u1 * x2) - ((a1 + u1 * x1) + (a1 + u1 * x2)) / 2) /
            Real.sqrt
              ((((a1 + u1 * x1) - ((a1 + u1 * x1) + (a1 + u1 * x2)) / 2) ^ 2 +
                  ((a1 + u1 * x2) - ((a1 + u1 * x1) + (a1 + u1 * x2)) / 2) ^ 2) / 2 +
                1 / 100000000)] ∧
      batchOutputAt (forwardPropWithBatchD (net121 a1 u1 a2 u2 c v1 v2)
          [[x1], [x2]] Real.sqrt) 1 1 =
        [((a2 + u2 * x1) - ((a2 + u2 * x1) + (a2 + u2 * x2)) / 2) /
            Real.sqrt
              ((((a2 + u2 * x1) - ((a2 + u2 * x1) + (a2 + u2 * x2)) / 2) ^ 2 +
                  ((a2 + u2 * x2) - ((a2 + u2 * x1) + (a2 + u2 * x2)) / 2) ^ 2) / 2 +
                1 / 100000000)] ++
          [((a2 + u2 * x2) - ((a2 + u2 * x1) + (a2 + u2 * x2)) / 2) /
            Real.sqrt
              ((((a2 + u2 * x1) - ((a2 + u2 * x1) + (a2 + u2 * x2)) / 2) ^ 2 +
                  ((a2 + u2 * x2) - ((a2 + u2 * x1) + (a2 + u2 * x2)) / 2) ^ 2) / 2 +
                1 / 100000000)]) ∧
    ((batchNormalizeNode Real.sqrt
        { mkNode 0 Activations.LINEAR [] with
          batchOutput := [1, 2, 3, 4], bnEpsilon := eps }).batchOutput =
      [(1 - 5 / 2) / Real.sqrt (5 / 4 + eps),
       (2 - 5 / 2) / Real.sqrt (5 / 4 + eps),
       (3 - 5 / 2) / Real.sqrt (5 / 4 + eps),
       (4 - 5 / 2) / Real.sqrt (5 / 4 + eps)]) := by
  refine ⟨?_, ?_, ?_⟩
  · simp only [batchNormalizeNode, foldl_add_map, foldl_add_id]
  · constructor <;>
      norm_num [forwardPropWithBatchD, forwardPropWithBatch, forwardBatchLayers,
        batchLayerPass, updateBatchOutput, batchNormalizeNode, setBatchInputs,
        net121, inNode, mkNode, mkLink, dummyNode, batchOutputAt, nodeAt,
        Activations.LINEAR, List.range_succ, List.range_zero, Function.comp,
        Function.iterate_succ, Function.iterate_zero]
  · norm_num [batchNormalizeNode, mkNode]

/-! ## C7: layer normalization in the single-example forward pass -/

/-- The spec's layer-normalization formula for one node, given the layer's
mean and biased variance:
`output = lnGamma * (output - mean) / sqrt(variance + lnEpsilon) + lnBeta`. -/
def lnSpecNode (sq : K → K) (mean variance : K) (node : Node K) : Node K :=
  { node with
    output := node.lnGamma *
      ((node.output - mean) / sq (variance + node.lnEpsilon)) + node.lnBeta }

/-- A hidden node with one incoming link and its own layer-normalization
parameters. -/
def lnHiddenNode (bias weightIn gamma beta eps : K) : Node K :=
  { mkNode bias Activations.LINEAR [mkLink weightIn Option.none] with
    lnGamma := gamma, lnBeta := beta, lnEpsilon := eps }

/-- A `[1, 3, 1]` network with linear activations and per-hidden-node
layer-normalization parameters. -/
def net131 (b1 u1 g1 be1 e1 b2 u2 g2 be2 e2 b3 u3 g3 be3 e3 c q1 q2 q3 : K) :
    Network K :=
  [[inNode],
   [lnHiddenNode b1 u1 g1 be1 e1, lnHiddenNode b2 u2 g2 be2 e2,
    lnHiddenNode b3 u3 g3 be3 e3],
   [mkNode c Activations.LINEAR
      [mkLink q1 Option.none, mkLink q2 Option.none, mkLink q3 Option.none]]]

/-- Claim C7: with normalization `"Layer"`, `forwardProp` overwrites each
non-last layer's raw outputs with `lnGamma * (output - mean)/sqrt(variance +
lnEpsilon) + lnBeta`, where mean and biased variance range over all nodes of
that layer and gamma/beta/epsilon are the node's own (conjuncts 1 and 3);
the last layer is never layer-normalized (conjuncts 2 and 4); on a `[1,3,1]`
network the hidden outputs follow that formula and the output node reads the
normalized values raw (conjunct 4); raw hidden outputs `[1,2,3]` with
`gamma = 1, beta = 0` give mean `2`, variance `2/3`, and outputs
`[(1-2)/sqrt(2/3+eps), 0, (3-2)/sqrt(2/3+eps)]` (conjunct 5). -/
theorem forwardProp_layer_normalization
    (b1 u1 g1 be1 e1 b2 u2 g2 be2 e2 b3 u3 g3 be3 e3 c q1 q2 q3 x eps : ℝ) :
    (∀ (sq : ℝ → ℝ) (layer : List (Node ℝ)),
      layerNormalize sq layer =
        layer.map (lnSpecNode sq
          ((layer.map Node.output).sum / (layer.length : ℝ))
          ((layer.map (fun m =>
              (m.output - (layer.map Node.output).sum / (layer.length : ℝ)) ^ 2)).sum /
            (layer.length : ℝ)))) ∧
    (∀ (sq : ℝ → ℝ) (prev layer : List (Node ℝ)),
      forwardLayers sq "Layer" prev [layer] = [layer.map (updateOutput prev)]) ∧
    (∀ (sq : ℝ → ℝ) (prev layer layer2 : List (Node ℝ))
        (rest2 : List (List (Node ℝ))),
      (forwardLayers sq "Layer" prev (layer :: layer2 :: rest2)).headD [] =
        layerNormalize sq (layer.map (updateOutput prev))) ∧
    (outputAt (forwardPropD
          (net131 b1 u1 g1 be1 e1 b2 u2 g2 be2 e2 b3 u3 g3 be3 e3 c q1 q2 q3)
          [x] "Layer" Real.sqrt) 1 0 =
        g1 * (((b1 + u1 * x) -
            ((b1 + u1 * x) + (b2 + u2 * x) + (b3 + u3 * x)) / 3) /
          Real.sqrt
            ((((b1 + u1 * x) - ((b1 + u1 * x) + (b2 + u2 * x) + (b3 + u3 * x)) / 3) ^ 2 +
                ((b2 + u2 * x) - ((b1 + u1 * x) + (b2 + u2 * x) + (b3 + u3 * x)) / 3) ^ 2 +
                ((b3 + u3 * x) - ((b1 + u1 * x) + (b2 + u2 * x) + (b3 + u3 * x)) / 3) ^ 2) / 3 +
              e1)) + be1 ∧
      outputAt (forwardPropD
          (net131 b1 u1 g1 be1 e1 b2 u2 g2 be2 e2 b3 u3 g3 be3 e3 c q1 q2 q3)
          [x] "Layer" Real.sqrt) 1 1 =
        g2 * (((b2 + u2 * x) -
            ((b1 + u1 * x) + (b2 + u2 * x) + (b3 + u3 * x)) / 3) /
          Real.sqrt
            ((((b1 + u1 * x) - ((b1 + u1 * x) + (b2 + u2 * x) + (b3 + u3 * x)) / 3) ^ 2 +
                ((b2 + u2 * x) - ((b1 + u1 * x) + (b2 + u2 * x) + (b3 + u3 * x)) / 3) ^ 2 +
                ((b3 + u3 * x) - ((b1 + u1 * x) + (b2 + u2 * x) + (b3 + u3 * x)) / 3) ^ 2) / 3 +
              e2)) + be2 ∧
      outputValue (forwardPropD
          (net131 b1 u1 g1 be1 e1 b2 u2 g2 be2 e2 b3 u3 g3 be3 e3 c q1 q2 q3)
          [x] "Layer" Real.sqrt) =
        c + q1 * outputAt (forwardPropD
            (net131 b1 u1 g1 be1 e1 b2 u2 g2 be2 e2 b3 u3 g3 be3 e3 c q1 q2 q3)
            [x] "Layer" Real.sqrt) 1 0 +
          q2 * outputAt (forwardPropD
            (net131 b1 u1 g1 be1 e1 b2 u2 g2 be2 e2 b3 u3 g3 be3 e3 c q1 q2 q3)
            [x] "Layer" Real.sqrt) 1 1 +
          q3 * outputAt (forwardPropD
            (net131 b1 u1 g1 be1 e1 b2 u2 g2 be2 e2 b3 u3 g3 be3 e3 c q1 q2 q3)
            [x] "Layer" Real.sqrt) 1 2) ∧
    (outputAt (forwardPropD
          (net131 1 0 1 0 eps 2 0 1 0 eps 3 0 1 0 eps c q1 q2 q3)
          [x] "Layer" Real.sqrt) 1 0 = (1 - 2) / Real.sqrt (2 / 3 + eps) ∧
      outputAt (forwardPropD
          (net131 1 0 1 0 eps 2 0 1 0 eps 3 0 1 0 eps c q1 q2 q3)
          [x] "Layer" Real.sqrt) 1 1 = 0 ∧
      outputAt (forwardPropD
          (net131 1 0 1 0 eps 2 0 1 0 eps 3 0 1 0 eps c q1 q2 q3)
          [x] "Layer" Real.sqrt) 1 2 = (3 - 2) / Real.sqrt (2 / 3 + eps)) := by
  refine ⟨?_, ?_, ?_, ?_, ?_⟩
  · intro sq layer
    simp only [layerNormalize, foldl_add_map, foldl_add_id, lnSpecNode]
    rfl
  · intro sq prev layer
    simp [forwardLayers]
  · intro sq prev layer layer2 rest2
    simp [forwardLayers]
  · refine ⟨?_, ?_, ?_⟩ <;>
      norm_num [forwardPropD, forwardProp, forwardLayers, updateOutput,
        layerNormalize, setInputOutputs, net131, lnHiddenNode, inNode, mkNode,
        mkLink, dummyNode, outputAt, outputValue, nodeAt, Activations.LINEAR,
        Function.comp, List.enum_cons, List.enum_nil] <;> ring_nf
  · refine ⟨?_, ?_, ?_⟩ <;>
      norm_num [forwardPropD, forwardProp, forwardLayers, updateOutput,
        layerNormalize, setInputOutputs, net131, lnHiddenNode, inNode, mkNode,
        mkLink, dummyNode, outputAt, outputValue, nodeAt, Activations.LINEAR,
        Function.comp, List.enum_cons, List.enum_nil]

/-! ## C1: backward propagation computes exact gradients on `[2, 2, 1]` -/

/-- A `[2, 2, 1]` network with linear activation everywhere and no
regularization: `wij` is the weight from input `i` to hidden node `j`,
`q1`/`q2` the hidden-to-output weights, `b1`/`b2`/`c` the biases.
Accumulators start at zero, as after `buildNetwork`. -/
def net221 (w11 w21 w12 w22 q1 q2 b1 b2 c : K) : Network K :=
  [[inNode, inNode],
   [mkNode b1 Activations.LINEAR
      [mkLink w11 Option.none, mkLink w21 Option.none],
    mkNode b2 Activations.LINEAR
      [mkLink w12 Option.none, mkLink w22 Option.none]],
   [mkNode c Activations.LINEAR
      [mkLink q1 Option.none, mkLink q2 Option.none]]]

/-- The accumulated error derivative of `network[i][j].inputLinks[k]`
(`0` when out of range). -/
def accErrAt (net : Network K) (i j k : ℕ) : K :=
  ((linkAt net i j k).map Link.accErrorDer).getD 0

lemma net221_output (w11 w21 w12 w22 q1 q2 b1 b2 c x1 x2 : ℝ) :
    outputValue (forwardPropD (net221 w11 w21 w12 w22 q1 q2 b1 b2 c)
        [x1, x2] "none" Real.sqrt) =
      c + q1 * (b1 + w11 * x1 + w21 * x2) + q2 * (b2 + w12 * x1 + w22 * x2) := by
  have hs : ("none" : String) ≠ "Layer" := by decide
  norm_num [forwardPropD, forwardProp, forwardLayers, updateOutput,
    setInputOutputs, net221, inNode, mkNode, mkLink, dummyNode, outputValue,
    Activations.LINEAR, Function.comp, hs, List.enum_cons, List.enum_nil]
  try ring

set_option maxHeartbeats 1000000 in
lemma net221_grads (w11 w21 w12 w22 q1 q2 b1 b2 c x1 x2 y : ℝ) :
    (accErrAt (backProp (forwardPropD (net221 w11 w21 w12 w22 q1 q2 b1 b2 c)
          [x1, x2] "none" Real.sqrt) y Errors.SQUARE) 1 0 0 =
        ((c + q1 * (b1 + w11 * x1 + w21 * x2) +
          q2 * (b2 + w12 * x1 + w22 * x2)) - y) * q1 * x1) ∧
    (accErrAt (backProp (forwardPropD (net221 w11 w21 w12 w22 q1 q2 b1 b2 c)
          [x1, x2] "none" Real.sqrt) y Errors.SQUARE) 1 0 1 =
        ((c + q1 * (b1 + w11 * x1 + w21 * x2) +
          q2 * (b2 + w12 * x1 + w22 * x2)) - y) * q1 * x2) ∧
    (accErrAt (backProp (forwardPropD (net221 w11 w21 w12 w22 q1 q2 b1 b2 c)
          [x1, x2] "none" Real.sqrt) y Errors.SQUARE) 1 1 0 =
        ((c + q1 * (b1 + w11 * x1 + w21 * x2) +
          q2 * (b2 + w12 * x1 + w22 * x2)) - y) * q2 * x1) ∧
    (accErrAt (backProp (forwardPropD (net221 w11 w21 w12 w22 q1 q2 b1 b2 c)
          [x1, x2] "none" Real.sqrt) y Errors.SQUARE) 1 1 1 =
        ((c + q1 * (b1 + w11 * x1 + w21 * x2) +
          q2 * (b2 + w12 * x1 + w22 * x2)) - y) * q2 * x2) ∧
    (accErrAt (backProp (forwardPropD (net221 w11 w21 w12 w22 q1 q2 b1 b2 c)
          [x1, x2] "none" Real.sqrt) y Errors.SQUARE) 2 0 0 =
        ((c + q1 * (b1 + w11 * x1 + w21 * x2) +
          q2 * (b2 + w12 * x1 + w22 * x2)) - y) * (b1 + w11 * x1 + w21 * x2)) ∧
    (accErrAt (backProp (forwardPropD (net221 w11 w21 w12 w22 q1 q2 b1 b2 c)
          [x1, x2] "none" Real.sqrt) y Errors.SQUARE) 2 0 1 =
        ((c + q1 * (b1 + w11 * x1 + w21 * x2) +
          q2 * (b2 + w12 * x1 + w22 * x2)) - y) * (b2 + w12 * x1 + w22 * x2)) := by
  have hs : ("none" : String) ≠ "Layer" := by decide
  refine ⟨?_, ?_, ?_, ?_, ?_, ?_⟩ <;>
    · norm_num [forwardPropD, forwardProp, forwardLayers, updateOutput,
        setInputOutputs, net221, inNode, mkNode, mkLink, dummyNode,
        Activations.LINEAR, Function.comp, hs, List.enum_cons, List.enum_nil,
        backProp, backPropWith, backPropAux, backPropNodes, backPropLinks,
        prevOutputDers, setOutputDers, setTargetDer, modifyHead, modifyLast,
        Errors.SQUARE, accErrAt, linkAt, nodeAt, List.range_succ,
        List.range_zero, -mul_eq_mul_left_iff, -mul_eq_mul_right_iff,
        -mul_eq_zero]
      try ring

lemma hasDerivAt_sqErrorAffine (A B y w D : ℝ)
    (hD : D = (A * w + B - y) * A) :
    HasDerivAt (fun w => (1 / 2) * ((A * w + B) - y) ^ 2) D w := by
  have h1 := (((hasDerivAt_id w).const_mul A).add_const B).sub_const y
  have h2 := (h1.pow 2).const_mul (1 / 2 : ℝ)
  convert h2 using 2
  rw [hD]
  simp only [id_eq]
  ring

/-- Claim C1: for the `[2, 2, 1]` network with linear activation on every
node, the square error, normalization off, and any weights, biases, input
`[x1, x2]` and target `y`, after `forwardProp` followed by `backProp` every
link's `accErrorDer` is EXACTLY the analytic partial derivative `dE/dweight`
of the error at that input and target with respect to that link's weight
(stated with `HasDerivAt`; the six conjuncts are the six links). -/
theorem backProp_gradients_exact_221 (w11 w21 w12 w22 q1 q2 b1 b2 c x1 x2 y : ℝ) :
    HasDerivAt (fun w => Errors.SQUARE.error (outputValue (forwardPropD
        (net221 w w21 w12 w22 q1 q2 b1 b2 c) [x1, x2] "none" Real.sqrt)) y)
      (accErrAt (backProp (forwardPropD (net221 w11 w21 w12 w22 q1 q2 b1 b2 c)
        [x1, x2] "none" Real.sqrt) y Errors.SQUARE) 1 0 0) w11 ∧
    HasDerivAt (fun w => Errors.SQUARE.error (outputValue (forwardPropD
        (net221 w11 w w12 w22 q1 q2 b1 b2 c) [x1, x2] "none" Real.sqrt)) y)
      (accErrAt (backProp (forwardPropD (net221 w11 w21 w12 w22 q1 q2 b1 b2 c)
        [x1, x2] "none" Real.sqrt) y Errors.SQUARE) 1 0 1) w21 ∧
    HasDerivAt (fun w => Errors.SQUARE.error (outputValue (forwardPropD
        (net221 w11 w21 w w22 q1 q2 b1 b2 c) [x1, x2] "none" Real.sqrt)) y)
      (accErrAt (backProp (forwardPropD (net221 w11 w21 w12 w22 q1 q2 b1 b2 c)
        [x1, x2] "none" Real.sqrt) y Errors.SQUARE) 1 1 0) w12 ∧
    HasDerivAt (fun w => Errors.SQUARE.error (outputValue (forwardPropD
        (net221 w11 w21 w12 w q1 q2 b1 b2 c) [x1, x2] "none" Real.sqrt)) y)
      (accErrAt (backProp (forwardPropD (net221 w11 w21 w12 w22 q1 q2 b1 b2 c)
        [x1, x2] "none" Real.sqrt) y Errors.SQUARE) 1 1 1) w22 ∧
    HasDerivAt (fun w => Errors.SQUARE.error (outputValue (forwardPropD
        (net221 w11 w21 w12 w22 w q2 b1 b2 c) [x1, x2] "none" Real.sqrt)) y)
      (accErrAt (backProp (forwardPropD (net221 w11 w21 w12 w22 q1 q2 b1 b2 c)
        [x1, x2] "none" Real.sqrt) y Errors.SQUARE) 2 0 0) q1 ∧
    HasDerivAt (fun w => Errors.SQUARE.error (outputValue (forwardPropD
        (net221 w11 w21 w12 w22 q1 w b1 b2 c) [x1, x2] "none" Real.sqrt)) y)
      (accErrAt (backProp (forwardPropD (net221 w11 w21 w12 w22 q1 q2 b1 b2 c)
        [x1, x2] "none" Real.sqrt) y Errors.SQUARE) 2 0 1) q2 := by
  obtain ⟨g1, g2, g3, g4, g5, g6⟩ :=
    net221_grads w11 w21 w12 w22 q1 q2 b1 b2 c x1 x2 y
  refine ⟨?_, ?_, ?_, ?_, ?_, ?_⟩
  · have hfun : (fun w => Errors.SQUARE.error (outputValue (forwardPropD
        (net221 w w21 w12 w22 q1 q2 b1 b2 c) [x1, x2] "none" Real.sqrt)) y)
        = fun w => (1 / 2) * (((q1 * x1) * w +
            (c + q1 * (b1 + w21 * x2) + q2 * (b2 + w12 * x1 + w22 * x2))) - y) ^ 2 := by
      funext w
      rw [show Errors.SQUARE.error (K := ℝ) = fun o t => (1 / 2) * (o - t) ^ 2 from rfl,
        net221_output]
      ring
    rw [hfun, g1]
    exact hasDerivAt_sqErrorAffine _ _ y w11 _ (by ring)
  · have hfun : (fun w => Errors.SQUARE.error (outputValue (forwardPropD
        (net221 w11 w w12 w22 q1 q2 b1 b2 c) [x1, x2] "none" Real.sqrt)) y)
        = fun w => (1 / 2) * (((q1 * x2) * w +
            (c + q1 * (b1 + w11 * x1) + q2 * (b2 + w12 * x1 + w22 * x2))) - y) ^ 2 := by
      funext w
      rw [show Errors.SQUARE.error (K := ℝ) = fun o t => (1 / 2) * (o - t) ^ 2 from rfl,
        net221_output]
      ring
    rw [hfun, g2]
    exact hasDerivAt_sqErrorAffine _ _ y w21 _ (by ring)
  · have hfun : (fun w => Errors.SQUARE.error (outputValue (forwardPropD
        (net221 w11 w21 w w22 q1 q2 b1 b2 c) [x1, x2] "none" Real.sqrt)) y)
        = fun w => (1 / 2) * (((q2 * x1) * w +
            (c + q1 * (b1 + w11 * x1 + w21 * x2) + q2 * (b2 + w22 * x2))) - y) ^ 2 := by
      funext w
      rw [show Errors.SQUARE.error (K := ℝ) = fun o t => (1 / 2) * (o - t) ^ 2 from rfl,
        net221_output]
      ring
    rw [hfun, g3]
    exact hasDerivAt_sqErrorAffine _ _ y w12 _ (by ring)
  · have hfun : (fun w => Errors.SQUARE.error (outputValue (forwardPropD
        (net221 w11 w21 w12 w q1 q2 b1 b2 c) [x1, x2] "none" Real.sqrt)) y)
        = fun w => (1 / 2) * (((q2 * x2) * w +
            (c + q1 * (b1 + w11 * x1 + w21 * x2) + q2 * (b2 + w12 * x1))) - y) ^ 2 := by
      funext w
      rw [show Errors.SQUARE.error (K := ℝ) = fun o t => (1 / 2) * (o - t) ^ 2 from rfl,
        net221_output]
      ring
    rw [hfun, g4]
    exact hasDerivAt_sqErrorAffine _ _ y w22 _ (by ring)
  · have hfun : (fun w => Errors.SQUARE.error (outputValue (forwardPropD
        (net221 w11 w21 w12 w22 w q2 b1 b2 c) [x1, x2] "none" Real.sqrt)) y)
        = fun w => (1 / 2) * (((b1 + w11 * x1 + w21 * x2) * w +
            (c + q2 * (b2 + w12 * x1 + w22 * x2))) - y) ^ 2 := by
      funext w
      rw [show Errors.SQUARE.error (K := ℝ) = fun o t => (1 / 2) * (o - t) ^ 2 from rfl,
        net221_output]
      ring
    rw [hfun, g5]
    exact hasDerivAt_sqErrorAffine _ _ y q1 _ (by ring)
  · have hfun : (fun w => Errors.SQUARE.error (outputValue (forwardPropD
        (net221 w11 w21 w12 w22 q1 w b1 b2 c) [x1, x2] "none" Real.sqrt)) y)
        = fun w => (1 / 2) * (((b2 + w12 * x1 + w22 * x2) * w +
            (c + q1 * (b1 + w11 * x1 + w21 * x2))) - y) ^ 2 := by
      funext w
      rw [show Errors.SQUARE.error (K := ℝ) = fun o t => (1 / 2) * (o - t) ^ 2 from rfl,
        net221_output]
      ring
    rw [hfun, g6]
    exact hasDerivAt_sqErrorAffine _ _ y q2 _ (by ring)

end Playground
